import Mathlib

/-!
# Verification of the apps admin router and the availability page build step

Shallow embedding of `src/packages/trpc/server/routers/viewer/apps.tsx`
(the tRPC procedures `listLocal`, `toggle`, `saveKeys`) and of the
`getStaticProps` build step of the availability editor page
(`src/unnamed/part_000`), together with theorems settling the spec's
claims about them.

The store (Prisma) is modelled as explicit lists of rows; each procedure
is a pure function from the pre-store (plus its inputs and ambient
configuration) to a result, a post-store and the list of email dispatches
it performed.  JavaScript truthiness tests that the source relies on
(`dbData?.keys`, `credential.user?.email`, `x || y`) are modelled
explicitly.
-/

namespace Cal

/-- A JSON value, as stored in Prisma `Json` columns and carried by the
`unknown`-typed `keys` payloads. -/
inductive JsonVal where
  | null
  | bool (b : Bool)
  | num (n : Int)
  | str (s : String)
  | arr (xs : List JsonVal)
  | obj (fields : List (String × JsonVal))

/-- JavaScript truthiness of a JSON value (`if (v)`). -/
def jsTruthy : JsonVal → Bool
  | .null => false
  | .bool b => b
  | .num n => n != 0
  | .str s => !s.isEmpty
  | .arr _ => true
  | .obj _ => true

/-- JavaScript truthiness of a possibly-absent string
(`undefined` and `""` are falsy). -/
def optStrTruthy : Option String → Bool
  | some s => !s.isEmpty
  | none => false

/-- JavaScript `x || d` for a possibly-absent string `x`. -/
def orDefault (x : Option String) (d : String) : String :=
  match x with
  | some s => if s.isEmpty then d else s
  | none => d

/-- A row of the `App` table (`slug` is the unique key). -/
structure AppRow where
  slug : String
  categories : List String
  enabled : Bool
  keys : Option JsonVal

/-- The user fields selected by the procedures (`email`, `locale`). -/
structure User where
  email : Option String
  locale : Option String

/-- A row of the `Credential` table: the link between a user and an app. -/
structure Credential where
  appId : String
  user : Option User

/-- The per-app entry of an event type's `metadata.apps` object: the
`enabled` sub-flag plus whatever other fields the object carries (those
are preserved by the source's object spread). -/
structure AppMeta where
  enabled : Bool
  extra : List (String × JsonVal)

/-- An event type's `metadata` object: the `apps` dictionary plus its
other fields (preserved by the source's top-level object spread). -/
structure ETMetadata where
  apps : List (String × AppMeta)
  extra : List (String × JsonVal)

/-- A row of the `EventType` table (fields selected by `toggle`). -/
structure EventType where
  id : Nat
  title : String
  users : List User
  metadata : ETMetadata

/-- The persistent store the procedures read and mutate. -/
structure Store where
  apps : List AppRow
  credentials : List Credential
  eventTypes : List EventType

/-- One entry of the static bundled-app catalog (`getLocalAppMetadata()`). -/
structure LocalApp where
  name : String
  slug : String
  logo : String
  title : Option String
  type : String
  description : String
  variant : String

/-- A generated per-app keys schema: a zod object schema over a fixed set
of key names (`keysSchema.keyof()._def.values` is exactly `keyNames`). -/
structure KeysSchema where
  keyNames : List String

/-- Modelled from the spec: the app catalog `getLocalAppMetadata()` and the
schema resolution `deriveAppDictKeyFromType` + `appKeysSchemas[...]` live in
packages outside `src/`; the spec describes them as a static catalog of
bundled app metadata and a lookup from a key derived from the app type to an
optional validation schema.  `resolveSchema ty = none` models the JS value
`undefined` (no schema under the derived key). -/
structure Env where
  catalog : List LocalApp
  resolveSchema : String → Option KeysSchema

/-- The session data the authorization guards inspect
(`ctx.session.user.role`; `authedProcedure` guarantees the user exists). -/
structure Session where
  role : String

/-- Errors a procedure can throw: the `UNAUTHORIZED` `TRPCError`, Prisma's
record-not-found on `update`, the `ZodError` thrown by `keysSchema.parse`,
and the `TypeError` of calling `.parse` on an `undefined` schema. -/
inductive TRPCErr where
  | unauthorized
  | notFound
  | zodValidation
  | typeError

/-- `prisma.app.findMany`-style unique lookup by slug
(also the shape of `dbApps.find(...)` / `prisma.app.update`'s `where`). -/
def findApp (apps : List AppRow) (slug : String) : Option AppRow :=
  apps.find? (fun a => a.slug == slug)

/-- `prisma.app.update({ where: { slug }, data: { enabled } })`: rewrite the
row with the given slug, leaving every other field and row unchanged. -/
def updateEnabled (apps : List AppRow) (slug : String) (e : Bool) : List AppRow :=
  apps.map (fun a => if a.slug == slug then { a with enabled := e } else a)

/-- `prisma.app.update({ where: { slug }, data: { keys } })`: rewrite the
row with the given slug, leaving every other field and row unchanged. -/
def updateKeys (apps : List AppRow) (slug : String) (keys : JsonVal) : List AppRow :=
  apps.map (fun a => if a.slug == slug then { a with keys := some keys } else a)

/-- Modelled from the spec: a generated keys schema is a zod object schema
over its key names (string-valued fields); `.parse` throws on a payload that
is not an object or lacks one of the keys as a string, and — as zod object
schemas do — strips fields outside the schema from the parsed result.
`none` models the thrown `ZodError`. -/
def zodParseKeys (sch : KeysSchema) (v : JsonVal) : Option JsonVal :=
  match v with
  | .obj fields =>
      if sch.keyNames.all (fun k =>
          match (fields.find? (fun p => p.1 == k)).map Prod.snd with
          | some (.str _) => true
          | _ => false) then
        some (.obj (sch.keyNames.filterMap (fun k =>
          ((fields.find? (fun p => p.1 == k)).map Prod.snd).map (fun w => (k, w)))))
      else none
  | _ => none

/-- The email dispatched by the calendar/video branch of `toggle`:
`sendDisabledAppEmail({ email, appName, appType, t })`. -/
structure EmailAttempt where
  email : String
  appName : String
  appType : List String

/-- The argument tuple of the generic branch's positional call
`sendDisabledAppEmail(eventType.title, user.email, appMetadata?.name, ..., eventType.id, t)`
(the `appMetdata?.categories` slot names an identifier that does not exist;
the call site is unreachable, see `genericNotify`). -/
structure GenericSend where
  title : String
  email : Option String
  appName : Option String
  eventTypeId : Nat

/-- A JavaScript runtime error escaping an async callback as a rejected
promise. -/
inductive JsErr where
  | referenceErr

/-- The emails attempted by the calendar/video branch: one per credential of
the app whose user exists and has a (truthy) email
(`if (credential.user?.email) await sendDisabledAppEmail({...})`). -/
def calendarAttempts (creds : List Credential) (slug : String) (appName : String)
    (cats : List String) : List EmailAttempt :=
  (creds.filter (fun c => c.appId == slug)).filterMap (fun c =>
    match c.user with
    | some u =>
        match u.email with
        | some e => if e.isEmpty then none else some ⟨e, appName, cats⟩
        | none => none
    | none => none)

/-- Does this event type's metadata mark the app enabled?
(the `findMany` filter `metadata path ["apps", slug, "enabled"] equals true`). -/
def etHasAppEnabled (et : EventType) (slug : String) : Bool :=
  match (et.metadata.apps.find? (fun p => p.1 == slug)).map Prod.snd with
  | some m => m.enabled
  | none => false

/-- The metadata object written back by the generic branch:
`{ ...metadata, apps: { ...metadata.apps, [slug]: { ...metadata.apps[slug], enabled: false } } }`.
A computed-key overwrite keeps an existing key in place; a fresh key is
appended (the filter guarantees the key is present in practice). -/
def setAppDisabled (md : ETMetadata) (slug : String) : ETMetadata :=
  let cur : AppMeta :=
    match (md.apps.find? (fun p => p.1 == slug)).map Prod.snd with
    | some m => m
    | none => ⟨false, []⟩
  let newMeta : AppMeta := { cur with enabled := false }
  if (md.apps.find? (fun p => p.1 == slug)).isSome then
    { md with apps := md.apps.map (fun p => if p.1 == slug then (p.1, newMeta) else p) }
  else
    { md with apps := md.apps ++ [(slug, newMeta)] }

/-- The email phase of the generic branch's per-event-type callback.  In the
source it reads
`const t = await getTranslation(user.locale || "en", "common");`
but no identifier `user` is bound at that point (the binder appears only in
the inner `eventType.users.map` below it), so evaluating `user.locale`
raises a `ReferenceError` and the callback's promise rejects before any
send; the inner send loop after it is dead code. -/
def genericNotify (appName : Option String) (et : EventType) :
    Except JsErr (List GenericSend) := do
  let _t ← (Except.error JsErr.referenceErr : Except JsErr Unit)
  pure (et.users.map (fun u => ⟨et.title, u.email, appName, et.id⟩))

/-- Everything a `toggle` call produces: the returned value (or thrown
error), the post-store, the calendar/video-branch email dispatches paired
with their fire-and-forget outcomes, and the generic-branch email
dispatches. -/
structure ToggleOut where
  result : Except TRPCErr Bool
  store : Store
  calendarSends : List (EmailAttempt × Bool)
  genericSends : List GenericSend

/-- The `toggle` mutation.  `sendOk` is the environment's verdict on each
calendar-branch send (`Promise.all` is not awaited, so outcomes are recorded
but nothing depends on them).  Steps, in source order: admin guard;
`prisma.app.update` setting `enabled: !input.enabled` (throws if no row has
the slug); catalog lookup for the app name; if `input.enabled` — i.e. the
app is being disabled — either notify credentialed users (calendar/video
category) or rewrite each referencing event type's metadata and notify its
users (generic category, where the notify step crashes, see
`genericNotify`); finally return the updated row's `enabled` flag. -/
def toggle (env : Env) (sendOk : EmailAttempt → Bool) (session : Session)
    (s : Store) (slug : String) (enabled : Bool) : ToggleOut :=
  if session.role != "ADMIN" then ⟨.error .unauthorized, s, [], []⟩
  else
    match findApp s.apps slug with
    | none => ⟨.error .notFound, s, [], []⟩
    | some app0 =>
      let app : AppRow := { app0 with enabled := !enabled }
      let apps' := updateEnabled s.apps slug (!enabled)
      let appMetadata := env.catalog.find? (fun l => l.slug == app.slug)
      if enabled then
        if app.categories.any (fun c => c == "calendar" || c == "video") then
          let appName := orDefault (appMetadata.map (·.name)) app.slug
          let attempts := calendarAttempts s.credentials app.slug appName app.categories
          ⟨.ok app.enabled, { s with apps := apps' },
            attempts.map (fun a => (a, sendOk a)), []⟩
        else
          let affected := s.eventTypes.filter (fun et => etHasAppEnabled et app.slug)
          let eventTypes' := s.eventTypes.map (fun et =>
            if etHasAppEnabled et app.slug then
              { et with metadata := setAppDisabled et.metadata app.slug }
            else et)
          let sends := (affected.map (genericNotify (appMetadata.map (·.name)))).flatMap
            (fun r => match r with | .ok l => l | .error _ => [])
          ⟨.ok app.enabled, { s with apps := apps', eventTypes := eventTypes' }, [], sends⟩
      else
        ⟨.ok app.enabled, { s with apps := apps' }, [], []⟩

/-- What a `saveKeys` call produces: the returned value (or thrown error)
and the post-store. -/
structure SaveKeysOut where
  result : Except TRPCErr Unit
  store : Store

/-- The `saveKeys` mutation, in source order: admin guard; resolve the keys
schema from `input.type` (an `undefined` schema makes the subsequent
`.parse` call throw a `TypeError`); `keysSchema.parse(input.keys)` (throws a
`ZodError` on invalid input, aborting the mutation before the write); then
`prisma.app.update` writing `keys: input.keys` — the original input, not the
parsed result `parse`, which is never used. -/
def saveKeys (env : Env) (session : Session) (s : Store) (slug ty : String)
    (keys : JsonVal) : SaveKeysOut :=
  if session.role != "ADMIN" then ⟨.error .unauthorized, s⟩
  else
    match env.resolveSchema ty with
    | none => ⟨.error .typeError, s⟩
    | some sch =>
      match zodParseKeys sch keys with
      | none => ⟨.error .zodValidation, s⟩
      | some _parse =>
        if (findApp s.apps slug).isSome then
          ⟨.ok (), { s with apps := updateKeys s.apps slug keys }⟩
        else ⟨.error .notFound, s⟩

/-- The record shape `listLocal` emits (the source's `FilteredApp`; its
`keys: unknown` field holds either the stored keys value, an array of
schema key names, or `null`). -/
structure FilteredApp where
  name : String
  slug : String
  logo : String
  title : Option String
  type : String
  description : String
  keys : JsonVal
  enabled : Bool

/-- The category the `listLocal` db query filters on:
`input.variant === "conferencing" ? "video" : input.variant`. -/
def resolveVariantCategory (variant : String) : String :=
  if variant == "conferencing" then "video" else variant

/-- The `keys` field emitted for an app with no stored keys:
`keysSchema ? keysSchema.keyof()._def.values : null`. -/
def schemaKeyNamesOrNull : Option KeysSchema → JsonVal
  | some sch => .arr (sch.keyNames.map .str)
  | none => .null

/-- The record `listLocal` emits for one catalog app: merge the bundled
metadata with the db row found among the category-filtered rows; if that
row has (truthy) stored keys, emit them verbatim, otherwise emit the schema
key names (or `null` with no schema); `enabled` is `dbData?.enabled || false`. -/
def listLocalRecord (env : Env) (dbApps : List AppRow) (app : LocalApp) : FilteredApp :=
  let dbData := dbApps.find? (fun d => d.slug == app.slug)
  match dbData with
  | some d =>
    match d.keys with
    | some v =>
      if jsTruthy v then
        ⟨app.name, app.slug, app.logo, app.title, app.type, app.description, v, d.enabled⟩
      else
        ⟨app.name, app.slug, app.logo, app.title, app.type, app.description,
          schemaKeyNamesOrNull (env.resolveSchema app.type), d.enabled⟩
    | none =>
      ⟨app.name, app.slug, app.logo, app.title, app.type, app.description,
        schemaKeyNamesOrNull (env.resolveSchema app.type), d.enabled⟩
  | none =>
    ⟨app.name, app.slug, app.logo, app.title, app.type, app.description,
      schemaKeyNamesOrNull (env.resolveSchema app.type), false⟩

/-- The `listLocal` query: admin guard; fetch the db rows whose categories
include the resolved variant; walk the catalog in order and emit one merged
record per app whose `variant` matches the input. -/
def listLocal (env : Env) (session : Session) (s : Store) (variant : String) :
    Except TRPCErr (List FilteredApp) :=
  if session.role != "ADMIN" then .error .unauthorized
  else
    let dbApps := s.apps.filter (fun a =>
      a.categories.contains (resolveVariantCategory variant))
    .ok ((env.catalog.filter (fun app => app.variant == variant)).map
      (listLocalRecord env dbApps))

/-- A route-parameter value as Next.js hands it to `getStaticProps`
(already a string in practice; the schema also accepts a number). -/
inductive RouteVal where
  | str (s : String)
  | num (n : Int)

/-- Digits of a non-empty decimal numeral, most significant first;
fails on any non-digit character. -/
def parseDecimalAux : List Char → Nat → Option Nat
  | [], acc => some acc
  | c :: cs, acc =>
    if c.isDigit then parseDecimalAux cs (10 * acc + (c.toNat - 48)) else none

/-- Parse a string of decimal digits; the empty string is not a numeral. -/
def parseDecimal : List Char → Option Nat
  | [] => none
  | cs => parseDecimalAux cs 0

/-- Modelled from the spec: `stringOrNumber` (from the repository's
`zod-utils` package, not under `src/`) parses a numeric id or a
numeric-string id and fails on anything else. -/
def stringOrNumber : RouteVal → Option Int
  | .num n => some n
  | .str s => (parseDecimal s.data).map Int.ofNat

/-- `querySchema.safeParse(ctx.params)`: fails when `params` is absent or
its `schedule` field is missing or not a numeric-or-numeric-string id. -/
def querySchemaParse (params : Option (List (String × RouteVal))) : Option Int :=
  match params with
  | none => none
  | some fields =>
    match (fields.find? (fun p => p.1 == "schedule")).map Prod.snd with
    | some v => stringOrNumber v
    | none => none

/-- The result of the availability page's build step: a not-found response,
or page props (the parsed schedule id) with the revalidation interval. -/
inductive BuildResult where
  | notFound
  | page (schedule : Int) (revalidate : Nat)

/-- `getStaticProps` of the availability page: parse the route params with
`querySchema.safeParse`; on failure return `{ notFound: true }`, otherwise
props `{ schedule }` with `revalidate: 10`. -/
def getStaticProps (params : Option (List (String × RouteVal))) : BuildResult :=
  match querySchemaParse params with
  | none => .notFound
  | some n => .page n 10

/-- The `Availability` page component (the editor form) is rendered only
when the build step produced page props; a not-found result renders the 404
page instead. -/
def rendersAvailabilityForm : BuildResult → Bool
  | .notFound => false
  | .page _ _ => true

/-- The (truthy) stored keys of an optional db row, if any: the value the
source's `if (dbData?.keys)` branch runs on. -/
def storedKeys : Option AppRow → Option JsonVal
  | some d =>
    match d.keys with
    | some v => if jsTruthy v then some v else none
    | none => none
  | none => none

/-! ## Concrete fixtures used by the witness and counterexample theorems -/

/-- A send environment in which every dispatch succeeds. -/
def okSend : EmailAttempt → Bool := fun _ => true

/-- A send environment in which every dispatch fails. -/
def failSend : EmailAttempt → Bool := fun _ => false

/-- A stored row for a generic (payment) app. -/
def stripeApp : AppRow := ⟨"stripe", ["payment"], true, none⟩

/-- Catalog and schema resolution for the stripe fixture. -/
def stripeEnv : Env :=
  ⟨[⟨"Stripe", "stripe", "stripe-logo", none, "stripe_payment", "Payment app", "payment"⟩],
   fun t => if t == "stripe_payment" then some ⟨["client_id"]⟩ else none⟩

/-- A store with the stripe row and one event type that has the app's
sub-flag enabled and one attached user. -/
def stripeStore : Store :=
  ⟨[stripeApp], [],
   [⟨7, "Quick chat", [⟨some "pro@example.com", some "en"⟩],
     ⟨[("stripe", ⟨true, [("price", .num 100)]⟩)], [("flag", .bool true)]⟩⟩]⟩

/-- A stored row for a calendar app. -/
def gcalApp : AppRow := ⟨"google-calendar", ["calendar"], true, none⟩

/-- Catalog for the calendar fixture. -/
def gcalEnv : Env :=
  ⟨[⟨"Google Calendar", "google-calendar", "gcal-logo", none, "google_calendar",
     "Calendar app", "calendar"⟩],
   fun _ => none⟩

/-- A store with the calendar row and two credentialed users. -/
def gcalStore : Store :=
  ⟨[gcalApp],
   [⟨"google-calendar", some ⟨some "a@example.com", some "fr"⟩⟩,
    ⟨"google-calendar", some ⟨some "b@example.com", none⟩⟩],
   []⟩

/-- A keys payload with a field outside the stripe schema. -/
def extraKeys : JsonVal :=
  .obj [("client_id", .str "ci_123"), ("webhook_secret", .str "whsec_9")]

/-- What the stripe schema's `.parse` returns on `extraKeys`:
the unknown field is stripped. -/
def parsedExtraKeys : JsonVal := .obj [("client_id", .str "ci_123")]

/-- Catalog with a schema-less second app, for the `listLocal` witnesses. -/
def listEnv : Env :=
  ⟨[⟨"Stripe", "stripe", "stripe-logo", none, "stripe_payment", "Payment app", "payment"⟩,
    ⟨"Mystery", "mystery", "m-logo", none, "mystery_type", "Mystery app", "payment"⟩],
   fun t => if t == "stripe_payment" then some ⟨["client_id"]⟩ else none⟩

/-- Store whose stripe row has stored keys; no row for the mystery app. -/
def listStore : Store :=
  ⟨[⟨"stripe", ["payment"], true, some (.obj [("client_id", .str "sk_live_123")])⟩], [], []⟩

/-- The records `listLocal` emits on the `listEnv`/`listStore` fixture. -/
def listRes : List FilteredApp :=
  [⟨"Stripe", "stripe", "stripe-logo", none, "stripe_payment", "Payment app",
    .obj [("client_id", .str "sk_live_123")], true⟩,
   ⟨"Mystery", "mystery", "m-logo", none, "mystery_type", "Mystery app", .null, false⟩]

/-! ## Helper lemmas -/

theorem findApp_map_update (l : List AppRow) (slug : String) (f : AppRow → AppRow)
    (hf : ∀ a, (f a).slug = a.slug) (a : AppRow) (h : findApp l slug = some a) :
    findApp (l.map (fun x => if x.slug == slug then f x else x)) slug = some (f a) := by
  unfold findApp at h ⊢
  have hpred : (a.slug == slug) = true := by
    have hp := List.find?_some h
    simpa using hp
  rw [List.find?_map]
  have hcomp : ((fun x : AppRow => x.slug == slug) ∘
      (fun x : AppRow => if x.slug == slug then f x else x))
      = (fun x : AppRow => x.slug == slug) := by
    funext x
    by_cases hx : (x.slug == slug) = true
    · simp [Function.comp, hx, hf x]
    · simp [Function.comp, hx]
  rw [hcomp, h]
  have hpred' : a.slug = slug := by simpa using hpred
  simp [hpred']

theorem findApp_updateEnabled (l : List AppRow) (slug : String) (e : Bool) (a : AppRow)
    (h : findApp l slug = some a) :
    findApp (updateEnabled l slug e) slug = some { a with enabled := e } :=
  findApp_map_update l slug (fun x => { x with enabled := e }) (fun _ => rfl) a h

theorem findApp_updateKeys (l : List AppRow) (slug : String) (keys : JsonVal) (a : AppRow)
    (h : findApp l slug = some a) :
    findApp (updateKeys l slug keys) slug = some { a with keys := some keys } :=
  findApp_map_update l slug (fun x => { x with keys := some keys }) (fun _ => rfl) a h

theorem listLocalRecord_slug (env : Env) (dbApps : List AppRow) (app : LocalApp) :
    (listLocalRecord env dbApps app).slug = app.slug := by
  simp only [listLocalRecord]
  rcases hdb : dbApps.find? (fun d => d.slug == app.slug) with _ | d <;>
    simp only [hdb]
  · rcases hk : d.keys with _ | v <;> simp only [hk]
    by_cases hv : jsTruthy v = true
    · simp [hv]
    · simp [hv]

theorem listLocalRecord_keys_stored (env : Env) (dbApps : List AppRow) (app : LocalApp)
    (v : JsonVal)
    (h : storedKeys (dbApps.find? (fun d => d.slug == app.slug)) = some v) :
    (listLocalRecord env dbApps app).keys = v := by
  simp only [listLocalRecord]
  rcases hdb : dbApps.find? (fun d => d.slug == app.slug) with _ | d <;>
    rw [hdb] at h <;> simp only [hdb]
  · simp [storedKeys] at h
  · simp only [storedKeys] at h
    rcases hk : d.keys with _ | w <;> rw [hk] at h <;> simp only [hk]
    · simp at h
    · by_cases hw : jsTruthy w = true
      · simp only [hw, if_true, Option.some.injEq] at h
        subst h
        simp [hw]
      · simp [hw] at h

theorem listLocalRecord_keys_schema (env : Env) (dbApps : List AppRow) (app : LocalApp)
    (h : storedKeys (dbApps.find? (fun d => d.slug == app.slug)) = none) :
    (listLocalRecord env dbApps app).keys
      = schemaKeyNamesOrNull (env.resolveSchema app.type) := by
  simp only [listLocalRecord]
  rcases hdb : dbApps.find? (fun d => d.slug == app.slug) with _ | d <;>
    rw [hdb] at h <;> simp only [hdb]
  · simp only [storedKeys] at h
    rcases hk : d.keys with _ | w <;> rw [hk] at h <;> simp only [hk]
    · by_cases hw : jsTruthy w = true
      · simp [hw] at h
      · simp [hw]

theorem listLocalRecord_enabled_missing_row (env : Env) (dbApps : List AppRow)
    (app : LocalApp) (h : dbApps.find? (fun d => d.slug == app.slug) = none) :
    (listLocalRecord env dbApps app).enabled = false := by
  simp only [listLocalRecord, h]

theorem length_filterMap_isSome {α β : Type} (f : α → Option β) (l : List α)
    (h : ∀ a ∈ l, (f a).isSome = true) : (l.filterMap f).length = l.length := by
  induction l with
  | nil => rfl
  | cons x xs ih =>
    have hx := h x (List.mem_cons_self x xs)
    rcases hfx : f x with _ | b
    · rw [hfx] at hx; simp at hx
    · simp [List.filterMap_cons, hfx, ih (fun a ha => h a (List.mem_cons_of_mem _ ha))]

/-! ## Claims -/

/-- **C1.** For every call to `apps.toggle` by an admin with input
`{slug, enabled}` on an existing app row, the stored row's `enabled` flag
after the call equals the logical negation of `input.enabled` — regardless
of the stored value before the call — and the procedure's return value is
the app's `enabled` flag after the update, i.e. also `!input.enabled`. -/
theorem toggle_negates_and_returns_enabled (env : Env) (sendOk : EmailAttempt → Bool)
    (session : Session) (s : Store) (slug : String) (enabled : Bool)
    (hadmin : session.role = "ADMIN") (a0 : AppRow)
    (happ : findApp s.apps slug = some a0) :
    (toggle env sendOk session s slug enabled).result = .ok (!enabled) ∧
    findApp (toggle env sendOk session s slug enabled).store.apps slug
      = some { a0 with enabled := !enabled } := by
  have hupd := findApp_updateEnabled s.apps slug (!enabled) a0 happ
  unfold toggle
  simp only [hadmin, bne_self_eq_false, Bool.false_eq_true, if_false, happ]
  rcases enabled with _ | _
  · exact ⟨rfl, hupd⟩
  · by_cases hc : (a0.categories.any (fun c => c == "calendar" || c == "video")) = true
    · simp only [hc]
      exact ⟨rfl, hupd⟩
    · simp only [Bool.not_eq_true] at hc
      simp only [hc]
      exact ⟨rfl, hupd⟩

/-- Witness for `toggle_negates_and_returns_enabled`: the concrete admin
call `toggle {slug := "stripe", enabled := true}` on the stripe store
(whose row is enabled) stores `false` and returns `false`. -/
theorem toggle_negates_and_returns_enabled_witness :
    (Session.mk "ADMIN").role = "ADMIN" ∧
    findApp stripeStore.apps "stripe" = some stripeApp ∧
    ((toggle stripeEnv okSend ⟨"ADMIN"⟩ stripeStore "stripe" true).result = .ok false ∧
     findApp (toggle stripeEnv okSend ⟨"ADMIN"⟩ stripeStore "stripe" true).store.apps "stripe"
       = some { stripeApp with enabled := false }) :=
  ⟨rfl, rfl, toggle_negates_and_returns_enabled stripeEnv okSend ⟨"ADMIN"⟩ stripeStore
    "stripe" true rfl stripeApp rfl⟩

/-- **C4.** For every admin call to `apps.saveKeys` whose keys payload
fails validation against the schema resolved from `input.type`, the
procedure surfaces the structured validation error (the thrown `ZodError`)
to the caller. -/
theorem saveKeys_surfaces_validation_error (env : Env) (session : Session) (s : Store)
    (slug ty : String) (keys : JsonVal) (sch : KeysSchema)
    (hadmin : session.role = "ADMIN") (hsch : env.resolveSchema ty = some sch)
    (hp : zodParseKeys sch keys = none) :
    (saveKeys env session s slug ty keys).result = .error .zodValidation := by
  unfold saveKeys
  simp [hadmin, hsch, hp]

/-- Witness for `saveKeys_surfaces_validation_error`: the concrete payload
`"bad"` (not an object) fails the stripe keys schema and the call returns
the validation error. -/
theorem saveKeys_surfaces_validation_error_witness :
    (Session.mk "ADMIN").role = "ADMIN" ∧
    stripeEnv.resolveSchema "stripe_payment" = some ⟨["client_id"]⟩ ∧
    zodParseKeys ⟨["client_id"]⟩ (.str "bad") = none ∧
    (saveKeys stripeEnv ⟨"ADMIN"⟩ stripeStore "stripe" "stripe_payment" (.str "bad")).result
      = .error .zodValidation :=
  ⟨rfl, rfl, rfl, saveKeys_surfaces_validation_error stripeEnv ⟨"ADMIN"⟩ stripeStore
    "stripe" "stripe_payment" (.str "bad") ⟨["client_id"]⟩ rfl rfl rfl⟩

/-- **C5.** For every call to `apps.listLocal`, `apps.toggle` or
`apps.saveKeys` in which the session's user role is not `ADMIN`, the
procedure fails with the unauthorized (401-class) error and performs no
store mutation (and dispatches no email). -/
theorem nonadmin_calls_unauthorized_no_mutation (env : Env) (sendOk : EmailAttempt → Bool)
    (session : Session) (s : Store) (variant slug ty : String) (enabled : Bool)
    (keys : JsonVal) (h : session.role ≠ "ADMIN") :
    listLocal env session s variant = .error .unauthorized ∧
    (toggle env sendOk session s slug enabled).result = .error .unauthorized ∧
    (toggle env sendOk session s slug enabled).store = s ∧
    (toggle env sendOk session s slug enabled).calendarSends = [] ∧
    (toggle env sendOk session s slug enabled).genericSends = [] ∧
    (saveKeys env session s slug ty keys).result = .error .unauthorized ∧
    (saveKeys env session s slug ty keys).store = s := by
  have hb : (session.role != "ADMIN") = true := by simp [bne_iff_ne, h]
  unfold listLocal toggle saveKeys
  simp [hb]

/-- Witness for `nonadmin_calls_unauthorized_no_mutation`: a session with
role `"MEMBER"` gets `UNAUTHORIZED` from all three procedures and the
store is untouched. -/
theorem nonadmin_calls_unauthorized_no_mutation_witness :
    (Session.mk "MEMBER").role ≠ "ADMIN" ∧
    (listLocal stripeEnv ⟨"MEMBER"⟩ stripeStore "payment" = .error .unauthorized ∧
     (toggle stripeEnv okSend ⟨"MEMBER"⟩ stripeStore "stripe" true).result
       = .error .unauthorized ∧
     (toggle stripeEnv okSend ⟨"MEMBER"⟩ stripeStore "stripe" true).store = stripeStore ∧
     (toggle stripeEnv okSend ⟨"MEMBER"⟩ stripeStore "stripe" true).calendarSends = [] ∧
     (toggle stripeEnv okSend ⟨"MEMBER"⟩ stripeStore "stripe" true).genericSends = [] ∧
     (saveKeys stripeEnv ⟨"MEMBER"⟩ stripeStore "stripe" "stripe_payment" (.str "x")).result
       = .error .unauthorized ∧
     (saveKeys stripeEnv ⟨"MEMBER"⟩ stripeStore "stripe" "stripe_payment" (.str "x")).store
       = stripeStore) :=
  ⟨by decide, nonadmin_calls_unauthorized_no_mutation stripeEnv okSend ⟨"MEMBER"⟩
    stripeStore "payment" "stripe" "stripe_payment" true (.str "x") (by decide)⟩

/-- **C9.** For every route parameter value that fails to parse as a
numeric-or-numeric-string schedule id, the availability page's build step
returns the not-found result, and the editor form is never rendered. -/
theorem getStaticProps_invalid_param_not_found (params : Option (List (String × RouteVal)))
    (h : querySchemaParse params = none) :
    getStaticProps params = .notFound ∧
    rendersAvailabilityForm (getStaticProps params) = false := by
  simp [getStaticProps, h, rendersAvailabilityForm]

/-- Witness for `getStaticProps_invalid_param_not_found`: the concrete
params `{ schedule: "abc" }` fail the schema and the build step returns
the not-found result. -/
theorem getStaticProps_invalid_param_not_found_witness :
    querySchemaParse (some [("schedule", RouteVal.str "abc")]) = none ∧
    (getStaticProps (some [("schedule", RouteVal.str "abc")]) = .notFound ∧
     rendersAvailabilityForm (getStaticProps (some [("schedule", RouteVal.str "abc")]))
       = false) :=
  ⟨rfl, getStaticProps_invalid_param_not_found (some [("schedule", RouteVal.str "abc")]) rfl⟩

/-- **C3 (counterexample).** The claim asserts the `saveKeys` write is
performed even when schema validation of `input.keys` fails.  It is not:
`keysSchema.parse` throws, aborting the mutation, so at the concrete
failing payload `"bad"` the caller gets the validation error and the store
is untouched — no write happens. -/
theorem saveKeys_invalid_performs_no_write :
    (saveKeys stripeEnv ⟨"ADMIN"⟩ stripeStore "stripe" "stripe_payment" (.str "bad")).result
      = .error .zodValidation ∧
    (saveKeys stripeEnv ⟨"ADMIN"⟩ stripeStore "stripe" "stripe_payment" (.str "bad")).store
      = stripeStore :=
  ⟨rfl, rfl⟩

/-- **C3 (amended).** For every admin call to `apps.saveKeys` whose keys
payload passes validation against the resolved schema, the value persisted
to the app row's `keys` field is the original `input.keys` exactly as
supplied — not the schema-parsed result; when validation fails the
procedure throws before the write (see the counterexample), so no write
occurs. -/
theorem saveKeys_persists_original_unvalidated_input (env : Env) (session : Session)
    (s : Store) (slug ty : String) (keys p : JsonVal) (sch : KeysSchema)
    (hadmin : session.role = "ADMIN") (hsch : env.resolveSchema ty = some sch)
    (hp : zodParseKeys sch keys = some p) (a0 : AppRow)
    (happ : findApp s.apps slug = some a0) :
    (saveKeys env session s slug ty keys).result = .ok () ∧
    findApp (saveKeys env session s slug ty keys).store.apps slug
      = some { a0 with keys := some keys } := by
  have hupd := findApp_updateKeys s.apps slug keys a0 happ
  unfold saveKeys
  simp only [hadmin, bne_self_eq_false, Bool.false_eq_true, if_false, hsch, hp, happ,
    Option.isSome_some, if_true]
  exact ⟨trivial, hupd⟩

/-- Witness for `saveKeys_persists_original_unvalidated_input`: the concrete
payload `extraKeys` parses to the stripped `parsedExtraKeys` (distinct from
the input), yet the row stores the raw `extraKeys`. -/
theorem saveKeys_persists_original_unvalidated_input_witness :
    zodParseKeys ⟨["client_id"]⟩ extraKeys = some parsedExtraKeys ∧
    parsedExtraKeys ≠ extraKeys ∧
    ((saveKeys stripeEnv ⟨"ADMIN"⟩ stripeStore "stripe" "stripe_payment" extraKeys).result
        = .ok () ∧
     findApp (saveKeys stripeEnv ⟨"ADMIN"⟩ stripeStore "stripe"
        "stripe_payment" extraKeys).store.apps "stripe"
        = some { stripeApp with keys := some extraKeys }) :=
  ⟨rfl, by simp [parsedExtraKeys, extraKeys],
   saveKeys_persists_original_unvalidated_input stripeEnv ⟨"ADMIN"⟩ stripeStore "stripe"
     "stripe_payment" extraKeys parsedExtraKeys ⟨["client_id"]⟩ rfl rfl rfl stripeApp rfl⟩

/-- **C2 (code bug, evaluated at the failing input).** Disabling the
generic-category stripe app (admin call, `enabled := true`) on a store with
one event type referencing it and one attached user: the event type's
metadata is persisted with the app sub-flag forced `false` (other metadata
fields preserved), but *no* notification is dispatched — the generic
branch's callback evaluates `user.locale` with no `user` in scope, so each
callback's promise rejects after its row update and before any send, and
the rejection is unawaited.  The claim's notification half fails on the
code. -/
theorem toggle_generic_disable_updates_metadata_but_sends_nothing :
    (toggle stripeEnv okSend ⟨"ADMIN"⟩ stripeStore "stripe" true).result = .ok false ∧
    ((toggle stripeEnv okSend ⟨"ADMIN"⟩ stripeStore "stripe" true).store.eventTypes.map
      (fun et => etHasAppEnabled et "stripe")) = [false] ∧
    ((toggle stripeEnv okSend ⟨"ADMIN"⟩ stripeStore "stripe" true).store.eventTypes.map
      (fun et => et.metadata.extra)) = [[("flag", .bool true)]] ∧
    (stripeStore.eventTypes.map (fun et => et.users.length)) = [1] ∧
    (toggle stripeEnv okSend ⟨"ADMIN"⟩ stripeStore "stripe" true).genericSends = [] ∧
    (toggle stripeEnv okSend ⟨"ADMIN"⟩ stripeStore "stripe" true).calendarSends = [] :=
  ⟨rfl, rfl, rfl, rfl, rfl, rfl⟩

/-- **C6.** For every admin call to `apps.toggle` with `enabled := true` on
an app whose categories include calendar or video and whose N credentials
each carry a user with an email, exactly N notification attempts are
dispatched; and because the sends are fire-and-forget, the outcome of any
individual send (`sendOk` versus `sendOk2`) changes neither the procedure's
return value, nor the post-store, nor which attempts are dispatched. -/
theorem toggle_calendar_disable_notifies_each_credentialed_user (env : Env)
    (sendOk sendOk2 : EmailAttempt → Bool) (session : Session) (s : Store) (slug : String)
    (hadmin : session.role = "ADMIN") (a0 : AppRow) (happ : findApp s.apps slug = some a0)
    (hcat : (a0.categories.any (fun c => c == "calendar" || c == "video")) = true)
    (husers : ∀ c ∈ s.credentials, c.appId = slug →
      ∃ u e, c.user = some u ∧ u.email = some e ∧ e ≠ "") :
    (toggle env sendOk session s slug true).calendarSends.length
      = (s.credentials.filter (fun c => c.appId == slug)).length ∧
    (toggle env sendOk session s slug true).result = .ok false ∧
    (toggle env sendOk2 session s slug true).result
      = (toggle env sendOk session s slug true).result ∧
    (toggle env sendOk2 session s slug true).store
      = (toggle env sendOk session s slug true).store ∧
    (toggle env sendOk2 session s slug true).calendarSends.map Prod.fst
      = (toggle env sendOk session s slug true).calendarSends.map Prod.fst := by
  have happ' : List.find? (fun a => a.slug == slug) s.apps = some a0 := happ
  have hslug : a0.slug = slug := by simpa using List.find?_some happ'
  have hlen : ∀ appName cats,
      (calendarAttempts s.credentials slug appName cats).length
        = (s.credentials.filter (fun c => c.appId == slug)).length := by
    intro appName cats
    unfold calendarAttempts
    refine length_filterMap_isSome _ _ ?_
    intro c hc
    rcases List.mem_filter.mp hc with ⟨hcmem, hcslug⟩
    rcases husers c hcmem (by simpa using hcslug) with ⟨u, e, hu, he, hne⟩
    have hemp : e.isEmpty = false := by
      rw [Bool.eq_false_iff]
      simpa [String.isEmpty_iff] using hne
    simp [hu, he, hemp]
  unfold toggle
  simp only [hadmin, bne_self_eq_false, Bool.false_eq_true, if_false, happ, hslug, hcat,
    if_true]
  refine ⟨?_, ?_, ?_, ?_, ?_⟩
  · simpa [hslug] using hlen _ _
  · trivial
  · trivial
  · trivial
  · simp [List.map_map, Function.comp]

/-- Witness for `toggle_calendar_disable_notifies_each_credentialed_user`:
disabling the calendar fixture app, whose two credentials both carry users
with emails, dispatches two attempts, and an all-fail send environment
agrees with the all-succeed one on return value, post-store and attempts. -/
theorem toggle_calendar_disable_notifies_witness :
    (Session.mk "ADMIN").role = "ADMIN" ∧
    findApp gcalStore.apps "google-calendar" = some gcalApp ∧
    (gcalApp.categories.any (fun c => c == "calendar" || c == "video")) = true ∧
    ((toggle gcalEnv okSend ⟨"ADMIN"⟩ gcalStore "google-calendar" true).calendarSends.length
       = (gcalStore.credentials.filter (fun c => c.appId == "google-calendar")).length ∧
     (toggle gcalEnv okSend ⟨"ADMIN"⟩ gcalStore "google-calendar" true).result = .ok false ∧
     (toggle gcalEnv failSend ⟨"ADMIN"⟩ gcalStore "google-calendar" true).result
       = (toggle gcalEnv okSend ⟨"ADMIN"⟩ gcalStore "google-calendar" true).result ∧
     (toggle gcalEnv failSend ⟨"ADMIN"⟩ gcalStore "google-calendar" true).store
       = (toggle gcalEnv okSend ⟨"ADMIN"⟩ gcalStore "google-calendar" true).store ∧
     (toggle gcalEnv failSend ⟨"ADMIN"⟩ gcalStore "google-calendar" true).calendarSends.map
         Prod.fst
       = (toggle gcalEnv okSend ⟨"ADMIN"⟩ gcalStore "google-calendar" true).calendarSends.map
         Prod.fst) :=
  ⟨rfl, rfl, rfl,
   toggle_calendar_disable_notifies_each_credentialed_user gcalEnv okSend failSend ⟨"ADMIN"⟩
     gcalStore "google-calendar" rfl gcalApp rfl rfl
     (by
       intro c hc _h
       simp only [gcalStore, List.mem_cons, List.not_mem_nil, or_false] at hc
       rcases hc with hc | hc <;> subst hc
       · exact ⟨⟨some "a@example.com", some "fr"⟩, "a@example.com", rfl, rfl, by simp⟩
       · exact ⟨⟨some "b@example.com", none⟩, "b@example.com", rfl, rfl, by simp⟩)⟩

/-- **C8.** For every admin call to `apps.toggle` with `enabled := false`
(enabling the app under the negation contract) on an existing row, no
notification emails are dispatched and no `EventType` or `Credential` rows
change; the only store mutation is the app row update: every row with a
different slug is unchanged, and the row with the input slug differs only
in its `enabled` flag, now `true`. -/
theorem toggle_enable_only_updates_app_row (env : Env) (sendOk : EmailAttempt → Bool)
    (session : Session) (s : Store) (slug : String)
    (hadmin : session.role = "ADMIN") (a0 : AppRow)
    (happ : findApp s.apps slug = some a0) :
    (toggle env sendOk session s slug false).result = .ok true ∧
    (toggle env sendOk session s slug false).calendarSends = [] ∧
    (toggle env sendOk session s slug false).genericSends = [] ∧
    (toggle env sendOk session s slug false).store.credentials = s.credentials ∧
    (toggle env sendOk session s slug false).store.eventTypes = s.eventTypes ∧
    (toggle env sendOk session s slug false).store.apps = updateEnabled s.apps slug true ∧
    ((updateEnabled s.apps slug true).length = s.apps.length ∧
     ∀ i, (h1 : i < s.apps.length) →
       (h2 : i < (updateEnabled s.apps slug true).length) →
       ((s.apps.get ⟨i, h1⟩).slug ≠ slug →
         (updateEnabled s.apps slug true).get ⟨i, h2⟩ = s.apps.get ⟨i, h1⟩) ∧
       ((s.apps.get ⟨i, h1⟩).slug = slug →
         (updateEnabled s.apps slug true).get ⟨i, h2⟩
           = { s.apps.get ⟨i, h1⟩ with enabled := true })) := by
  have hpoint : ∀ i, (h1 : i < s.apps.length) →
      (h2 : i < (updateEnabled s.apps slug true).length) →
      ((s.apps.get ⟨i, h1⟩).slug ≠ slug →
        (updateEnabled s.apps slug true).get ⟨i, h2⟩ = s.apps.get ⟨i, h1⟩) ∧
      ((s.apps.get ⟨i, h1⟩).slug = slug →
        (updateEnabled s.apps slug true).get ⟨i, h2⟩
          = { s.apps.get ⟨i, h1⟩ with enabled := true }) := by
    intro i h1 h2
    constructor
    · intro hne
      have hne' : ¬s.apps[i].slug = slug := by
        simpa [List.get_eq_getElem] using hne
      simp [updateEnabled, List.get_eq_getElem, List.getElem_map, hne']
    · intro heq
      have heq' : s.apps[i].slug = slug := by
        simpa [List.get_eq_getElem] using heq
      simp [updateEnabled, List.get_eq_getElem, List.getElem_map, heq']
  unfold toggle
  simp only [hadmin, bne_self_eq_false, Bool.false_eq_true, if_false, happ, Bool.not_false]
  refine ⟨?_, ?_, ?_, ?_, ?_, ?_, ⟨by simp [updateEnabled], hpoint⟩⟩ <;> trivial

/-- Witness for `toggle_enable_only_updates_app_row`: enabling the stripe
fixture app dispatches nothing, leaves event types and credentials alone,
and rewrites only the stripe row's flag. -/
theorem toggle_enable_only_updates_app_row_witness :
    (Session.mk "ADMIN").role = "ADMIN" ∧
    findApp stripeStore.apps "stripe" = some stripeApp ∧
    ((toggle stripeEnv okSend ⟨"ADMIN"⟩ stripeStore "stripe" false).result = .ok true ∧
     (toggle stripeEnv okSend ⟨"ADMIN"⟩ stripeStore "stripe" false).calendarSends = [] ∧
     (toggle stripeEnv okSend ⟨"ADMIN"⟩ stripeStore "stripe" false).genericSends = [] ∧
     (toggle stripeEnv okSend ⟨"ADMIN"⟩ stripeStore "stripe" false).store.credentials
       = stripeStore.credentials ∧
     (toggle stripeEnv okSend ⟨"ADMIN"⟩ stripeStore "stripe" false).store.eventTypes
       = stripeStore.eventTypes ∧
     (toggle stripeEnv okSend ⟨"ADMIN"⟩ stripeStore "stripe" false).store.apps
       = updateEnabled stripeStore.apps "stripe" true) := by
  have h := toggle_enable_only_updates_app_row stripeEnv okSend ⟨"ADMIN"⟩ stripeStore
    "stripe" rfl stripeApp rfl
  exact ⟨rfl, rfl, h.1, h.2.1, h.2.2.1, h.2.2.2.1, h.2.2.2.2.1, h.2.2.2.2.2.1⟩

/-- **C7.** For every admin call to `apps.listLocal` and every emitted
record: it corresponds to a bundled catalog app of the requested variant;
if the category-filtered db rows hold (truthy) stored keys for that app,
the record's `keys` field is those stored keys verbatim; and if not, the
`keys` field is computed from the resolved schema alone — the array of
schema-defined key names (or `null` with no schema, cf. C10) — so it never
contains raw configuration values. -/
theorem listLocal_keys_verbatim_or_schema_names (env : Env) (session : Session)
    (s : Store) (variant : String) (hadmin : session.role = "ADMIN")
    (res : List FilteredApp) (hres : listLocal env session s variant = .ok res)
    (fa : FilteredApp) (hfa : fa ∈ res) :
    ∃ app, app ∈ env.catalog ∧ app.variant = variant ∧ fa.slug = app.slug ∧
      (∀ v, storedKeys ((s.apps.filter (fun a =>
          a.categories.contains (resolveVariantCategory variant))).find?
          (fun d => d.slug == app.slug)) = some v → fa.keys = v) ∧
      (storedKeys ((s.apps.filter (fun a =>
          a.categories.contains (resolveVariantCategory variant))).find?
          (fun d => d.slug == app.slug)) = none →
        fa.keys = schemaKeyNamesOrNull (env.resolveSchema app.type)) := by
  unfold listLocal at hres
  simp only [hadmin, bne_self_eq_false, Bool.false_eq_true, if_false,
    Except.ok.injEq] at hres
  subst hres
  rcases List.mem_map.mp hfa with ⟨app, hmem, hfa'⟩
  rcases List.mem_filter.mp hmem with ⟨hcatmem, hvar⟩
  subst hfa'
  exact ⟨app, hcatmem, by simpa using hvar, listLocalRecord_slug _ _ _,
    fun v hv => listLocalRecord_keys_stored _ _ _ v hv,
    fun h => listLocalRecord_keys_schema _ _ _ h⟩

/-- Witness for `listLocal_keys_verbatim_or_schema_names` at the concrete
fixture: the stripe record of the listing carries the stored keys
verbatim. -/
theorem listLocal_keys_verbatim_or_schema_names_witness :
    (Session.mk "ADMIN").role = "ADMIN" ∧
    listLocal listEnv ⟨"ADMIN"⟩ listStore "payment" = .ok listRes ∧
    (∃ app, app ∈ listEnv.catalog ∧ app.variant = "payment" ∧
      (FilteredApp.mk "Stripe" "stripe" "stripe-logo" none "stripe_payment" "Payment app"
        (.obj [("client_id", .str "sk_live_123")]) true).slug = app.slug ∧
      (∀ v, storedKeys ((listStore.apps.filter (fun a =>
          a.categories.contains (resolveVariantCategory "payment"))).find?
          (fun d => d.slug == app.slug)) = some v →
        (FilteredApp.mk "Stripe" "stripe" "stripe-logo" none "stripe_payment" "Payment app"
          (.obj [("client_id", .str "sk_live_123")]) true).keys = v) ∧
      (storedKeys ((listStore.apps.filter (fun a =>
          a.categories.contains (resolveVariantCategory "payment"))).find?
          (fun d => d.slug == app.slug)) = none →
        (FilteredApp.mk "Stripe" "stripe" "stripe-logo" none "stripe_payment" "Payment app"
          (.obj [("client_id", .str "sk_live_123")]) true).keys
          = schemaKeyNamesOrNull (listEnv.resolveSchema app.type))) :=
  ⟨rfl, rfl,
   listLocal_keys_verbatim_or_schema_names listEnv ⟨"ADMIN"⟩ listStore "payment" rfl
     listRes rfl _ (List.mem_cons_self _ _)⟩

/-- **C10.** For every admin call to `apps.listLocal` and every emitted
record: when there are no (truthy) stored keys and no schema resolves from
the app's type, the record's `keys` field is `null` (not a list of key
names); and when no stored row exists at all among the category-filtered
rows, the record's `enabled` flag is `false`. -/
theorem listLocal_no_schema_null_and_missing_row_disabled (env : Env) (session : Session)
    (s : Store) (variant : String) (hadmin : session.role = "ADMIN")
    (res : List FilteredApp) (hres : listLocal env session s variant = .ok res)
    (fa : FilteredApp) (hfa : fa ∈ res) :
    ∃ app, app ∈ env.catalog ∧ app.variant = variant ∧ fa.slug = app.slug ∧
      ((storedKeys ((s.apps.filter (fun a =>
          a.categories.contains (resolveVariantCategory variant))).find?
          (fun d => d.slug == app.slug)) = none ∧ env.resolveSchema app.type = none) →
        fa.keys = .null) ∧
      (((s.apps.filter (fun a =>
          a.categories.contains (resolveVariantCategory variant))).find?
          (fun d => d.slug == app.slug)) = none → fa.enabled = false) := by
  unfold listLocal at hres
  simp only [hadmin, bne_self_eq_false, Bool.false_eq_true, if_false,
    Except.ok.injEq] at hres
  subst hres
  rcases List.mem_map.mp hfa with ⟨app, hmem, hfa'⟩
  rcases List.mem_filter.mp hmem with ⟨hcatmem, hvar⟩
  subst hfa'
  refine ⟨app, hcatmem, by simpa using hvar, listLocalRecord_slug _ _ _, ?_, ?_⟩
  · intro h
    rw [listLocalRecord_keys_schema _ _ _ h.1, h.2]
    rfl
  · intro h
    exact listLocalRecord_enabled_missing_row _ _ _ h

/-- Witness for `listLocal_no_schema_null_and_missing_row_disabled` at the
concrete fixture: the mystery record — no stored row, no schema — carries
`keys = null` and `enabled = false`. -/
theorem listLocal_no_schema_null_witness :
    (Session.mk "ADMIN").role = "ADMIN" ∧
    listLocal listEnv ⟨"ADMIN"⟩ listStore "payment" = .ok listRes ∧
    (∃ app, app ∈ listEnv.catalog ∧ app.variant = "payment" ∧
      (FilteredApp.mk "Mystery" "mystery" "m-logo" none "mystery_type" "Mystery app"
        .null false).slug = app.slug ∧
      ((storedKeys ((listStore.apps.filter (fun a =>
          a.categories.contains (resolveVariantCategory "payment"))).find?
          (fun d => d.slug == app.slug)) = none ∧
        listEnv.resolveSchema app.type = none) →
        (FilteredApp.mk "Mystery" "mystery" "m-logo" none "mystery_type" "Mystery app"
          .null false).keys = .null) ∧
      (((listStore.apps.filter (fun a =>
          a.categories.contains (resolveVariantCategory "payment"))).find?
          (fun d => d.slug == app.slug)) = none →
        (FilteredApp.mk "Mystery" "mystery" "m-logo" none "mystery_type" "Mystery app"
          .null false).enabled = false)) :=
  ⟨rfl, rfl,
   listLocal_no_schema_null_and_missing_row_disabled listEnv ⟨"ADMIN"⟩ listStore "payment"
     rfl listRes rfl _ (by simp [listRes])⟩

end Cal
